import Mathlib

/-!
# Shallow embedding of the arc-rpc remote-object core

This file embeds the core RPC logic of the arc-rpc repository:

* the path-based endpoint (`src/unnamed/part_001`): the `allow` dispatcher for
  inbound `fnCall` messages, the caller side `_call` with its callback-argument
  parsing, the proxy mirror `_genClass`, and the `dataUpdate` / `propUpdate`
  listeners registered in `_listen`;
* the flat (fnId-based) dispatchers of `src/index.js` and
  `src/unnamed/part_000`;
* the encrypted transport listeners (`ServerSocketInterface._listen` /
  `ClientSocketInterface._listen`).

JavaScript values are modelled by `JVal`; invocable members are
defunctionalised into `JFunc` behaviours with an explicit receiver argument
(`this`).  Messages written to the stream are collected into explicit lists.
External library calls (`object-path` get/set, `Errio` to/fromObject, the
serialization codec, `nacl.secretbox.open`) are modelled from their documented
behaviour at the points the source uses them.
-/

set_option autoImplicit false
set_option maxHeartbeats 1000000

mutual

/-- JavaScript-like values: `null`/`undefined` leaves, numbers, strings,
plain objects (insertion-ordered association lists of own properties), and
function values. -/
inductive JVal where
  | null : JVal
  | num (n : Int) : JVal
  | str (s : String) : JVal
  | obj (fields : List (String × JVal)) : JVal
  | func (f : JFunc) : JVal

/-- Defunctionalised bodies of the invocable members appearing in the exposed
objects of this development: a function returning a constant value
(e.g. `greet: () => "hi"`), a function throwing `Error(msg)` (or rejecting,
which an `await` surfaces identically), and a function returning its
receiver (`function () { return this }`), used to observe `this`-binding. -/
inductive JFunc where
  | const (ret : JVal) : JFunc
  | throwE (name msg : String) : JFunc
  | retRecv : JFunc

end

/-- Own-property lookup in an insertion-ordered object field list. -/
def lookupField : List (String × JVal) → String → Option JVal
  | [], _ => none
  | (k', v) :: rest, k => if k' = k then some v else lookupField rest k

/-- `v[k]` on a JS value: property access on an object; `undefined` (here
`none`) on anything else. -/
def getField (v : JVal) (k : String) : Option JVal :=
  match v with
  | .obj fields => lookupField fields k
  | _ => none

/-- `objectPath.get(v, path)`: sequential property lookup; an empty path
returns the value itself, a lookup that falls off the tree returns
`undefined` (`none`). -/
def getPath : JVal → List String → Option JVal
  | v, [] => some v
  | v, k :: rest =>
    match getField v k with
    | some w => getPath w rest
    | none => none

/-- The JS test `x == null`, satisfied by both `null` and `undefined`. -/
def nullish : Option JVal → Bool
  | none => true
  | some .null => true
  | some _ => false

/-- JS property assignment `obj[k] = v` on a field list: overwrite in place,
preserving insertion order, appending when the key is new. -/
def setEntry : List (String × JVal) → String → JVal → List (String × JVal)
  | [], k, v => [(k, v)]
  | (k', w) :: rest, k, v =>
    if k' = k then (k', v) :: rest else (k', w) :: setEntry rest k v

/-- `objectPath.set(t, path, v)`: walk the path, creating a fresh `{}` for a
missing intermediate, and overwrite the final key.  An empty path leaves the
value unchanged, and an assignment routed through a non-object value is
modelled as a no-op (in the source such an assignment never updates the
tree either). -/
def setPath (t : JVal) (path : List String) (v : JVal) : JVal :=
  match t, path with
  | t, [] => t
  | .obj fields, [k] => .obj (setEntry fields k v)
  | .obj fields, k :: rest =>
    match lookupField fields k with
    | some (.obj cf) => .obj (setEntry fields k (setPath (.obj cf) rest v))
    | some _ => .obj fields
    | none => .obj (setEntry fields k (setPath (.obj []) rest v))
  | t, _ => t

mutual

/-- The serialization codec applied to a `dataUpdate` snapshot: data survives
verbatim, function-valued members are not representable on the wire and are
dropped (methods of a class instance are likewise not own-enumerable and are
never serialized). -/
def stripFuncs : JVal → JVal
  | .obj fields => .obj (stripFields fields)
  | .func _ => .null
  | v => v

/-- Field-list part of `stripFuncs`. -/
def stripFields : List (String × JVal) → List (String × JVal)
  | [] => []
  | (_, .func _) :: rest => stripFields rest
  | (k, v) :: rest => (k, stripFuncs v) :: stripFields rest

end

/-- A JavaScript `Error` as `Errio` sees it: a name and a message. -/
structure ErrObj where
  name : String
  message : String
deriving DecidableEq

/-- `Errio.toObject(err)`: the error serialized to a plain record. -/
def errioToObject (e : ErrObj) : JVal :=
  .obj [("name", .str e.name), ("message", .str e.message)]

/-- Read a string field of a serialized error, defaulting to `""`. -/
def strFieldD (v : JVal) (k : String) : String :=
  match getField v k with
  | some (.str s) => s
  | _ => ""

/-- `Errio.fromObject(data)`: rebuild an error carrying the serialized
name and message. -/
def errioFromObject (v : JVal) : ErrObj :=
  { name := strFieldD v "name", message := strFieldD v "message" }

/-- A wire representation of one call argument, as built by `_call` in
`src/unnamed/part_001`: the JS object literal carries either
`{isFunc: true, resId}` for a function argument or `{isFunc: false, data}`
for a plain value.  Absent properties read as `undefined` (`none`);
in particular `funcId` is never set by the sender. -/
structure WireParam where
  isFunc : Bool
  resId : Option String
  funcId : Option String
  data : Option JVal

/-- Payload of a call response `{isError, data}`. -/
structure ResPayload where
  isError : Bool
  data : JVal

/-- Payload of an inbound `fnCall` message in the path-based variant
(`src/unnamed/part_001`). -/
structure FnCallMsg where
  path : List String
  parentPath : List String
  resId : String
  params : List WireParam

/-- Payloads crossing the stream. -/
inductive Payload where
  | call (c : FnCallMsg)
  | res (r : ResPayload)
  | cb (cbParams : List JVal)
  | dataUp (d : JVal)
  | propUp (path : List String) (value : JVal)

/-- One `stream.send(id, data)`: the event name (which the source sometimes
computes from a value that is `undefined`, hence `Option`) and the payload. -/
structure Msg where
  id : Option String
  payload : Payload

/-- The argument a resolved handler receives for one wire param, per the
`call.params.map` in the `allow` fnCall listener of `src/unnamed/part_001`:
a function param is reconstructed as a stub closure that sends a one-way
message on channel `param.funcId`, a data param passes `param.data`
through. -/
inductive CalleeArg where
  | val (v : JVal)
  | stub (channel : Option String)

/-- Reconstructed-callback stub body: `(...fnParams) =>
this._stream.send(param.funcId, { params: fnParams })`. -/
def stubSend (channel : Option String) (args : List JVal) : Msg :=
  { id := channel, payload := .cb args }

/-- The receiver-side mapping of one wire param (lines 172–182 of
`src/unnamed/part_001`). -/
def mapParam (p : WireParam) : CalleeArg :=
  if p.isFunc then .stub p.funcId
  else .val (p.data.getD JVal.null)

/-- Invoke a defunctionalised handler with an explicit receiver (`this`)
and arguments; `Except.error` models a throw (or an awaited rejection). -/
def applyFunc (f : JFunc) (recv : JVal) (_args : List CalleeArg) :
    Except ErrObj JVal :=
  match f with
  | .const v => .ok v
  | .throwE n m => .error { name := n, message := m }
  | .retRecv => .ok recv

/-- One handler invocation performed by a dispatcher, with the receiver it
was bound to and the arguments it got. -/
structure Invocation where
  func : JFunc
  recv : JVal
  args : List CalleeArg

/-- Everything a dispatcher did for one inbound message: the messages it
sent and the invocations it performed. -/
structure DispatchOut where
  sent : List Msg
  invoked : List Invocation

/-- The empty dispatch effect. -/
def emptyOut : DispatchOut := { sent := [], invoked := [] }

/-- Sequencing of dispatch effects. -/
def mergeOut (a b : DispatchOut) : DispatchOut :=
  { sent := a.sent ++ b.sent, invoked := a.invoked ++ b.invoked }

/-- The serialized `TypeError` produced when `.bind` is taken on a resolved
member that is not a function (thrown inside the dispatcher's `try`). -/
def typeErrorBind : ErrObj :=
  { name := "TypeError", message := "handler.bind is not a function" }

/-- The `fnCall` listener registered by `Rpc.allow` in
`src/unnamed/part_001` (lines 154–203): resolve `call.path` and
`call.parentPath` with `objectPath.get`; a nullish handler answers
`'No such method'`; otherwise the params are mapped, the handler is invoked
bound to the parent, a throw is caught and serialized with `Errio`, and in
every branch exactly one response is sent on channel `call.resId`. -/
def allowFnCall (child : JVal) (call : FnCallMsg) : DispatchOut :=
  let handler := getPath child call.path
  let parent := getPath child call.parentPath
  if nullish handler then
    { sent := [{ id := some call.resId,
                 payload := .res { isError := true, data := .str "No such method" } }],
      invoked := [] }
  else
    let args := call.params.map mapParam
    match handler with
    | some (.func f) =>
      let recv := parent.getD JVal.null
      match applyFunc f recv args with
      | .error e =>
        { sent := [{ id := some call.resId,
                     payload := .res { isError := true, data := errioToObject e } }],
          invoked := [{ func := f, recv := recv, args := args }] }
      | .ok v =>
        { sent := [{ id := some call.resId,
                     payload := .res { isError := false, data := v } }],
          invoked := [{ func := f, recv := recv, args := args }] }
    | _ =>
      { sent := [{ id := some call.resId,
                   payload := .res { isError := true, data := errioToObject typeErrorBind } }],
        invoked := [] }

/-- Payload of an inbound `fnCall` in the flat variants (`src/index.js`,
`src/unnamed/part_000`), which address the handler by a single `fnId` and
pass the params through unmapped. -/
structure FlatCall where
  fnId : String
  resId : String
  params : List JVal

/-- The `TypeError` thrown by `undefined.bind` / calling a non-function. -/
def typeErrorNotFunc : ErrObj :=
  { name := "TypeError", message := "handler is not a function" }

/-- The `fnCall` listener of `src/index.js` `Rpc._listen` (lines 92–131).
`let handler = this._child[call.fnId].bind(this._child)` throws a
`TypeError` out of the listener whenever the member is missing or not a
function, *before* the `handler == null` inexistence branch can run (that
branch is therefore unreachable and does not appear below); the escape is
the `Except.error` case, in which no response at all is sent.  A resolved
function is invoked bound to the child; a throw inside the `try` is
answered by an error response and the `catch` returns, so a resolved
handler yields exactly one response. -/
def indexFnCall (child : JVal) (call : FlatCall) : Except ErrObj (List Msg) :=
  let chan := some ("fnRes." ++ call.resId)
  match getField child call.fnId with
  | some (.func f) =>
    match applyFunc f child (call.params.map CalleeArg.val) with
    | .error e =>
      .ok [{ id := chan, payload := .res { isError := true, data := errioToObject e } }]
    | .ok v =>
      .ok [{ id := chan, payload := .res { isError := false, data := v } }]
  | _ => .error typeErrorNotFunc

/-- The `fnCall` listener of `src/unnamed/part_000` `Rpc._listen`
(lines 66–99).  `let handler = this._child[call.fnId]` has no existence
check ("TODO: handle missing"); the call `handler(...)` sits inside the
`try`, so a missing member throws there and is caught like a handler throw.
The `catch` block sends an error response but — unlike `src/index.js` —
does not `return`, so execution falls through and the trailing success
response (with `response` still `null`) is sent as well: two responses on
the error path, one on the success path.  Error values cross the channel as
their name/message record. -/
def part000FnCall (child : JVal) (call : FlatCall) : List Msg :=
  let chan := some ("fnRes." ++ call.resId)
  match getField child call.fnId with
  | some (.func f) =>
    match applyFunc f JVal.null (call.params.map CalleeArg.val) with
    | .ok v => [{ id := chan, payload := .res { isError := false, data := v } }]
    | .error e =>
      [{ id := chan, payload := .res { isError := true, data := errioToObject e } },
       { id := chan, payload := .res { isError := false, data := JVal.null } }]
  | _ =>
    [{ id := chan, payload := .res { isError := true, data := errioToObject typeErrorNotFunc } },
     { id := chan, payload := .res { isError := false, data := JVal.null } }]

/-- A caller-side argument of `_call` in `src/unnamed/part_001`: either a
local function (identified by an opaque callback id, so that its
invocations can be observed) or a plain value. -/
inductive SParam where
  | fn (cb : Nat)
  | val (v : JVal)

/-- The `params.map` of `_call` (lines 210–228 of `src/unnamed/part_001`):
a function argument draws a fresh id `cbResId` from the uuid supply,
registers a listener keyed by that id invoking the original function, and
is replaced on the wire by the literal `{ isFunc: true, resId: cbResId }`
(note: the id travels under the property name `resId`); a plain value
becomes `{ isFunc: false, data: param }`.  Returns the wire params and the
listener registry. -/
def parseParams (params : List SParam) (fresh : Nat → String) (i : Nat) :
    List WireParam × List (String × Nat) :=
  match params with
  | [] => ([], [])
  | .fn cb :: rest =>
    let cbResId := fresh i
    let (ws, reg) := parseParams rest fresh (i + 1)
    ({ isFunc := true, resId := some cbResId, funcId := none, data := none } :: ws,
     (cbResId, cb) :: reg)
  | .val v :: rest =>
    let (ws, reg) := parseParams rest fresh i
    ({ isFunc := false, resId := none, funcId := none, data := some v } :: ws, reg)

/-- Deliver one inbound message to the caller's callback-listener registry:
every listener whose key equals the message's event id fires, invoking the
original local function with `res.params`.  Returns the invocations
`(callback id, delivered arguments)`. -/
def deliverCb (registry : List (String × Nat)) (m : Msg) : List (Nat × List JVal) :=
  match m.payload with
  | .cb args => registry.filterMap (fun e => if some e.1 = m.id then some (e.2, args) else none)
  | _ => []

/-- Outcome of an awaited remote call, as seen by the proxy stub of
`_genClass` (lines 84–94 of `src/unnamed/part_001`): resolve with the data,
throw the deserialized error, or stay pending forever when no response with
the generated `resId` ever arrives. -/
inductive CallOutcome where
  | resolved (v : JVal)
  | threw (e : ErrObj)
  | pending

/-- The stub's treatment of a received response: `isError` throws
`Errio.fromObject(out.data)`, otherwise the data is returned. -/
def stubComplete (r : ResPayload) : CallOutcome :=
  if r.isError then .threw (errioFromObject r.data) else .resolved r.data

/-- What the one-shot listener `stream.once(resId, ...)` of `_call`
receives: the payload of the first message on the stream whose event id is
`resId` (responses travel as `res` payloads). -/
def resMatch (resId : String) (m : Msg) : Option ResPayload :=
  if m.id = some resId then
    match m.payload with
    | .res r => some r
    | _ => none
  else none

/-- Await the response correlated to `resId` among the delivered messages. -/
def awaitRes (sent : List Msg) (resId : String) : Option ResPayload :=
  sent.findSome? (resMatch resId)

/-- A full round trip of `_call` against a remote `allow` dispatcher:
parse the arguments, send the `fnCall`, let the remote dispatcher process
it, and complete the stub with the response correlated to `resId` (or stay
pending when none arrives). -/
def rpcCall (child : JVal) (path parentPath : List String) (args : List SParam)
    (resId : String) (fresh : Nat → String) : CallOutcome :=
  let ws := (parseParams args fresh 0).1
  let out := allowFnCall child
    { path := path, parentPath := parentPath, resId := resId, params := ws }
  match awaitRes out.sent resId with
  | some r => stubComplete r
  | none => .pending

/-- Result of one property access on the proxy mirror of `_genClass`
(lines 68–103 of `src/unnamed/part_001`): a non-object data property is
returned verbatim, an object property is wrapped into a nested mirror at
the extended path, and a nullish member becomes an invocable call stub
that will `_call (propPath, params, path)`. -/
inductive MirrorGet where
  | data (v : JVal)
  | nested (base : JVal) (path : List String)
  | stub (propPath parentPath : List String)

/-- The `get` trap of the `_genClass` proxy. -/
def mirrorGet (base : JVal) (path : List String) (property : String) : MirrorGet :=
  let propPath := path ++ [property]
  match getField base property with
  | some .null | none => .stub propPath path
  | some (.obj fs) => .nested (.obj fs) propPath
  | some (.func f) => .nested (.func f) propPath
  | some v => .data v

/-- State of a path-based `Rpc` endpoint (`src/unnamed/part_001`): the
cached remote data `_lastData` (initially `{}`), the base the current
`class` mirror was generated from, the optional exposed child, and whether
`allow()` has registered the `fnCall` listener (the constructor's
`_listen` registers only the `dataUpdate` and `propUpdate` listeners). -/
structure EndState where
  lastData : JVal
  mirrorBase : JVal
  child : Option JVal
  fnCallAllowed : Bool

/-- The state right after the `Rpc` constructor ran. -/
def initState (child : Option JVal) : EndState :=
  { lastData := .obj [], mirrorBase := .obj [],
    child := child, fnCallAllowed := false }

/-- Inbound stream events a path-based endpoint can receive. -/
inductive InMsg where
  | dataUpdate (d : JVal)
  | propUpdate (path : List String) (value : JVal)
  | fnCall (c : FnCallMsg)
  | evt (id : String) (params : List JVal)

/-- Process one inbound event: `dataUpdate` replaces `_lastData` and
regenerates the mirror from it; `propUpdate` applies `objectPath.set` and
regenerates the mirror; `fnCall` is dispatched by the `allow` listener only
when one was registered, and is otherwise not handled at all; `evt` only
re-emits locally. -/
def step (st : EndState) (m : InMsg) : EndState × DispatchOut :=
  match m with
  | .dataUpdate d => ({ st with lastData := d, mirrorBase := d }, emptyOut)
  | .propUpdate p v =>
    let d := setPath st.lastData p v
    ({ st with lastData := d, mirrorBase := d }, emptyOut)
  | .fnCall c =>
    if st.fnCallAllowed then (st, allowFnCall (st.child.getD JVal.null) c)
    else (st, emptyOut)
  | .evt _ _ => (st, emptyOut)

/-- `Rpc.allow(updates)` (lines 117–204 of `src/unnamed/part_001`): returns
immediately on a childless endpoint; otherwise it sends the full snapshot
when `updates` is set (the mutation-intercepting proxies it then installs
on the child act only on later local writes) and registers the `fnCall`
listener. -/
def allowOp (st : EndState) (updates : Bool) : EndState × List Msg :=
  match st.child with
  | none => (st, [])
  | some c =>
    ({ st with fnCallAllowed := true },
     if updates then [{ id := some "dataUpdate", payload := .dataUp c }] else [])

/-- Run a whole inbound trace, accumulating the dispatch effects. -/
def runTrace (st : EndState) : List InMsg → EndState × DispatchOut
  | [] => (st, emptyOut)
  | m :: rest =>
    let s1 := step st m
    let s2 := runTrace s1.1 rest
    (s2.1, mergeOut s1.2 s2.2)

/-- An encrypted wire packet `{nonce, encrypted}` as the socket message
listeners see it; a missing property reads as `undefined`. -/
structure CipherPacket where
  nonce : Option String
  encrypted : Option String

/-- Outcome of `nacl.secretbox.open`: `failed` models the `null` return on
an undecryptable box (per the library's contract, which the client
interfaces' `decrypted == null` checks in the same files rely on), and
`opened` carries the decrypted JSON text. -/
inductive OpenResult where
  | failed
  | opened (plaintext : String)

/-- The JS loose test `decrypted == false` used by the *server* interfaces:
`null == false` evaluates to `false`, and a byte array is loosely equal to
`false` exactly when it coerces to `0`, i.e. when it is empty. -/
def openLooseEqFalse : OpenResult → Bool
  | .failed => false
  | .opened s => s == ""

/-- `ServerSocketInterface._listen` (`src/index.js` lines 176–198; the
`ServerIpcInterface` of `src/unnamed/part_000` lines 142–162 is
identical after its socket-id filter): a packet missing `nonce` or
`encrypted` is silently ignored; then the guard `if (decrypted == false)
return` is tested; past the guard a failed decryption reaches
`Buffer.from(null)`, which throws a `TypeError` out of the listener
(`Except.error`); a successful decryption is decoded and emitted. -/
def serverListen (p : CipherPacket) (openRes : OpenResult) :
    Except ErrObj (Option String) :=
  if p.nonce.isNone || p.encrypted.isNone then .ok none
  else if openLooseEqFalse openRes then .ok none
  else
    match openRes with
    | .failed => .error { name := "TypeError",
                          message := "Buffer.from received null" }
    | .opened s => .ok (some s)

/-- `ClientSocketInterface._listen` (`src/index.js` lines 264–281; likewise
`ClientIpcInterface` in `src/unnamed/part_000`): identical except that the
guard is `if (decrypted == null) return`, so a failed decryption is
silently ignored. -/
def clientListen (p : CipherPacket) (openRes : OpenResult) :
    Except ErrObj (Option String) :=
  if p.nonce.isNone || p.encrypted.isNone then .ok none
  else
    match openRes with
    | .failed => .ok none
    | .opened s => .ok (some s)

/-- Fold the `allow` dispatcher over a sequence of inbound calls (the
listener stays registered and keeps no per-call state). -/
def allowProcessAll (child : JVal) : List FnCallMsg → DispatchOut
  | [] => emptyOut
  | c :: rest => mergeOut (allowFnCall child c) (allowProcessAll child rest)

/-- The receiver of a *local* method call along `path` on the exposed
object: JavaScript evaluates the property chain up to the last segment and
invokes the final member with `this` bound to that object. -/
def localReceiver (child : JVal) (path : List String) : JVal :=
  (getPath child path.dropLast).getD JVal.null

/-- A response message on channel `r` with payload `p`. -/
def resMsg (r : String) (p : ResPayload) : Msg :=
  { id := some r, payload := .res p }

/-- The `isError` flag of a response message, `none` on other payloads. -/
def resIsError (m : Msg) : Option Bool :=
  match m.payload with
  | .res r => some r.isError
  | _ => none

/-- `true` exactly on object values. -/
def isObj : JVal → Bool
  | .obj _ => true
  | _ => false

theorem setEntry_lookup_self (l : List (String × JVal)) (k : String) (v : JVal) :
    lookupField (setEntry l k v) k = some v := by
  induction l with
  | nil => simp [setEntry, lookupField]
  | cons hd tl ih =>
    obtain ⟨k', w⟩ := hd
    by_cases h : k' = k
    · simp [setEntry, lookupField, h]
    · simp [setEntry, lookupField, h, ih]

theorem setEntry_idem (l : List (String × JVal)) (k : String) (v : JVal) :
    setEntry (setEntry l k v) k v = setEntry l k v := by
  induction l with
  | nil => simp [setEntry]
  | cons hd tl ih =>
    obtain ⟨k', w⟩ := hd
    by_cases h : k' = k
    · simp [setEntry, h]
    · simp [setEntry, h, ih]

theorem setPath_obj_isObj (fs : List (String × JVal)) (p : List String) (v : JVal) :
    isObj (setPath (.obj fs) p v) = true := by
  match p with
  | [] => simp [setPath, isObj]
  | [k] => simp [setPath, isObj]
  | k :: k2 :: rest =>
    simp only [setPath]
    cases h : lookupField fs k with
    | none => simp [isObj]
    | some c => cases c <;> simp [isObj]

theorem isObj_exists (w : JVal) (h : isObj w = true) :
    ∃ gs, w = JVal.obj gs := by
  cases w <;> simp [isObj] at h ⊢

theorem setPath_idem (p : List String) (t v : JVal) :
    setPath (setPath t p v) p v = setPath t p v := by
  induction p generalizing t with
  | nil => simp [setPath]
  | cons k rest ih =>
    cases rest with
    | nil => cases t <;> simp [setPath, setEntry_idem]
    | cons k2 rest2 =>
      cases t with
      | obj fields =>
        cases h : lookupField fields k with
        | none =>
          obtain ⟨gs, hgs⟩ := isObj_exists _ (setPath_obj_isObj [] (k2 :: rest2) v)
          have hidem : setPath (setPath (.obj []) (k2 :: rest2) v) (k2 :: rest2) v =
              setPath (.obj []) (k2 :: rest2) v := ih (.obj [])
          have h2 : setPath (JVal.obj gs) (k2 :: rest2) v = JVal.obj gs := by
            rw [← hgs]; exact hidem
          simp only [setPath, h]
          rw [setEntry_lookup_self, hgs]
          simp only [h2, setEntry_idem]
        | some c =>
          cases c with
          | obj cf =>
            obtain ⟨gs, hgs⟩ := isObj_exists _ (setPath_obj_isObj cf (k2 :: rest2) v)
            have hidem : setPath (setPath (.obj cf) (k2 :: rest2) v) (k2 :: rest2) v =
                setPath (.obj cf) (k2 :: rest2) v := ih (.obj cf)
            have h2 : setPath (JVal.obj gs) (k2 :: rest2) v = JVal.obj gs := by
              rw [← hgs]; exact hidem
            simp only [setPath, h]
            rw [setEntry_lookup_self, hgs]
            simp only [h2, setEntry_idem]
          | null => simp only [setPath, h]
          | num n => simp only [setPath, h]
          | str s => simp only [setPath, h]
          | func f => simp only [setPath, h]
      | null => simp [setPath]
      | num n => simp [setPath]
      | str s => simp [setPath]
      | func f => simp [setPath]

theorem getPath_setPath_emptyObj (p : List String) (v : JVal) (hp : p ≠ []) :
    getPath (setPath (.obj []) p v) p = some v := by
  induction p with
  | nil => exact absurd rfl hp
  | cons k rest ih =>
    cases rest with
    | nil => simp [setPath, setEntry, getPath, getField, lookupField]
    | cons k2 rest2 =>
      have hrec := ih (by simp)
      simp only [setPath, lookupField, setEntry, getPath, getField]
      simpa using hrec

theorem nodupKeys_eq {α : Type} (entries : List (String × α))
    (h : (entries.map Prod.fst).Nodup) {r : String} {p q : α}
    (hp : (r, p) ∈ entries) (hq : (r, q) ∈ entries) : p = q := by
  induction entries with
  | nil => cases hp
  | cons e rest ih =>
    simp only [List.map_cons, List.nodup_cons] at h
    rcases List.mem_cons.mp hp with hp1 | hp1
    · rcases List.mem_cons.mp hq with hq1 | hq1
      · have : (r, p) = (r, q) := hp1.trans hq1.symm
        simpa using congrArg Prod.snd this
      · exfalso
        apply h.1
        rw [← hp1]
        exact List.mem_map.mpr ⟨(r, q), hq1, rfl⟩
    · rcases List.mem_cons.mp hq with hq1 | hq1
      · exfalso
        apply h.1
        rw [← hq1]
        exact List.mem_map.mpr ⟨(r, p), hp1, rfl⟩
      · exact ih h.2 hp1 hq1

theorem findSome?_of_unique {α β : Type} (f : α → Option β) (a : α) (b : β)
    (hf : f a = some b) (l : List α)
    (hall : ∀ m ∈ l, f m ≠ none → m = a) (hmem : a ∈ l) :
    l.findSome? f = some b := by
  induction l with
  | nil => cases hmem
  | cons hd tl ih =>
    simp only [List.findSome?]
    cases hfh : f hd with
    | some c =>
      have heq : hd = a := by
        apply hall hd (List.mem_cons_self hd tl)
        rw [hfh]
        exact fun hcon => Option.noConfusion hcon
      rw [heq, hf] at hfh
      simpa using hfh.symm
    | none =>
      have hmem' : a ∈ tl := by
        rcases List.mem_cons.mp hmem with h1 | h1
        · exfalso
          rw [h1] at hf
          rw [hf] at hfh
          exact Option.noConfusion hfh
        · exact h1
      exact ih (fun m hm => hall m (List.mem_cons_of_mem _ hm)) hmem'

theorem step_keeps_unallowed (st : EndState) (m : InMsg)
    (h : st.fnCallAllowed = false) :
    (step st m).1.fnCallAllowed = false ∧ (step st m).2 = emptyOut := by
  cases m <;> simp [step, h]

theorem runTrace_unallowed (msgs : List InMsg) :
    ∀ st : EndState, st.fnCallAllowed = false →
      (runTrace st msgs).2 = emptyOut ∧ (runTrace st msgs).1.fnCallAllowed = false := by
  induction msgs with
  | nil => exact fun st h => ⟨rfl, h⟩
  | cons m rest ih =>
    intro st h
    obtain ⟨h1, h2⟩ := step_keeps_unallowed st m h
    obtain ⟨h3, h4⟩ := ih (step st m).1 h1
    refine ⟨?_, h4⟩
    simp [runTrace, h2, h3, mergeOut, emptyOut]

theorem mergeOut_emptyOut (a : DispatchOut) : mergeOut a emptyOut = a := by
  simp [mergeOut, emptyOut]

/-- The exposed object of the spec's testable properties:
`{a: 1, b: {c: 2}, greet: () => "hi"}`. -/
def child5 : JVal :=
  .obj [("a", .num 1), ("b", .obj [("c", .num 2)]),
        ("greet", .func (.const (.str "hi")))]

/-- The snapshot of `child5` as a `dataUpdate` delivers it. -/
def snap5 : JVal := stripFuncs child5

/-- A child whose only member `f` throws `Error("boom")`. -/
def boomChild : JVal := .obj [("f", .func (.throwE "Error" "boom"))]

/-- An object with a method `m` returning its receiver, next to a data
property, used to observe `this`-binding. -/
def oObj : JVal := .obj [("m", .func .retRecv), ("x", .num 7)]

/-- A child exposing `oObj` under `o`. -/
def child8 : JVal := .obj [("o", oObj)]

/-- Two distinct response payloads for the correlation witness. -/
def pay1 : ResPayload := { isError := false, data := .num 10 }

/-- Second response payload for the correlation witness. -/
def pay2 : ResPayload := { isError := false, data := .num 20 }

/-- C1: the claim that exactly one Call Response is sent per inbound Call
Request, in every case, fails on the cited dispatchers.  In
`src/unnamed/part_000` the `catch` block lacks a `return`, so a throwing
handler is answered by an error response *and* the trailing success
response (two responses); in `src/index.js` a missing member makes
`this._child[call.fnId].bind` throw before any response is sent (zero
responses), while a resolved throwing handler there does get exactly one. -/
theorem claim1_single_response_violated :
    (part000FnCall boomChild { fnId := "f", resId := "r1", params := [] }).map resIsError
      = [some true, some false] ∧
    indexFnCall (.obj []) { fnId := "g", resId := "r1", params := [] }
      = .error typeErrorNotFunc ∧
    (indexFnCall boomChild { fnId := "f", resId := "r1", params := [] }).map
        (fun l => l.map resIsError) = .ok [some true] :=
  ⟨rfl, rfl, rfl⟩

/-- C2: the sender-side `_call` of `src/unnamed/part_001` does replace a
function argument by a wire reference with a fresh id and registers a
listener keyed by that id — but it stores the id under the property
`resId`, while the receiving dispatcher reconstructs the stub around
`param.funcId`, which is absent (`undefined`).  Invoking the reconstructed
stub with `(1, 2)` therefore sends its one-way message on the undefined
channel, the registered listener never matches, and the original local
function is invoked zero times instead of once. -/
theorem claim2_callback_never_invoked :
    (parseParams [SParam.fn 0] (fun _ => "cb1") 0).1
      = [{ isFunc := true, resId := some "cb1", funcId := none, data := none }] ∧
    (parseParams [SParam.fn 0] (fun _ => "cb1") 0).2 = [("cb1", 0)] ∧
    mapParam { isFunc := true, resId := some "cb1", funcId := none, data := none }
      = .stub none ∧
    stubSend none [.num 1, .num 2] = { id := none, payload := .cb [.num 1, .num 2] } ∧
    deliverCb [("cb1", 0)] (stubSend none [.num 1, .num 2]) = [] :=
  ⟨rfl, rfl, rfl, rfl, rfl⟩

/-- C3: in the path-based dispatcher (`src/unnamed/part_001`) a
non-resolving path is answered by exactly one error Call Response, no
handler is invoked, the caller's awaited call rejects, and a later call on
the same endpoint still succeeds.  In the `src/index.js` variant, however,
the same situation makes `.bind` throw *before* the (dead) inexistence
branch, so no response at all is sent and the caller's promise never
settles — the claim fails on that cited code. -/
theorem claim3_resolution_error :
    allowFnCall child5 { path := ["nope"], parentPath := [], resId := "r3", params := [] }
      = { sent := [{ id := some "r3",
                     payload := .res { isError := true, data := .str "No such method" } }],
          invoked := [] } ∧
    rpcCall child5 ["nope"] [] [] "r3" (fun _ => "cb")
      = .threw { name := "", message := "" } ∧
    rpcCall child5 ["greet"] [] [] "r3b" (fun _ => "cb") = .resolved (.str "hi") ∧
    indexFnCall (.obj [("a", .num 1)]) { fnId := "nope", resId := "r3", params := [] }
      = .error typeErrorNotFunc :=
  ⟨rfl, rfl, rfl, rfl⟩

/-- C4: a resolved handler throwing `Error("boom")` is caught by the
`allow` dispatcher of `src/unnamed/part_001`, which sends exactly one Call
Response with `isError: true` whose Errio-serialized payload deserializes
back to message `"boom"`; the caller's stub rethrows that error; and the
dispatcher keeps no state, so any further call is processed exactly as it
would have been on its own. -/
theorem claim4_handler_throw_boom
    (child : JVal) (call : FnCallMsg) (n : String)
    (hres : getPath child call.path = some (.func (.throwE n "boom"))) :
    (allowFnCall child call).sent =
      [{ id := some call.resId,
         payload := .res { isError := true,
                           data := errioToObject { name := n, message := "boom" } } }] ∧
    (errioFromObject (errioToObject { name := n, message := "boom" })).message = "boom" ∧
    stubComplete { isError := true, data := errioToObject { name := n, message := "boom" } }
      = .threw { name := n, message := "boom" } ∧
    ∀ c2 : FnCallMsg, allowProcessAll child [call, c2]
      = mergeOut (allowFnCall child call) (allowFnCall child c2) := by
  refine ⟨?_, rfl, rfl, ?_⟩
  · simp [allowFnCall, hres, nullish, applyFunc]
  · intro c2
    simp [allowProcessAll, mergeOut_emptyOut]

/-- Witness for C4 at the concrete child `{f: () => { throw Error("boom") }}`. -/
theorem claim4_handler_throw_boom_witness :
    (allowFnCall boomChild
        { path := ["f"], parentPath := [], resId := "r4", params := [] }).sent
      = [{ id := some "r4",
           payload := .res { isError := true,
                             data := errioToObject { name := "Error", message := "boom" } } }] :=
  (claim4_handler_throw_boom boomChild
    { path := ["f"], parentPath := [], resId := "r4", params := [] } "Error" rfl).1

/-- C5: the mirror generated from the Snapshot Update of
`{a: 1, b: {c: 2}, greet: () => "hi"}` returns the data property `a`
verbatim, recursively mirrors the nested object `b` so that `mirror.b.c`
reads `2`, turns every property that is not in the snapshot data (such as
`greet`) into an invocable stub for that path, and invoking the `greet`
stub round-trips a Call Request that resolves with `"hi"`. -/
theorem claim5_mirror_snapshot :
    snap5 = .obj [("a", .num 1), ("b", .obj [("c", .num 2)])] ∧
    mirrorGet snap5 [] "a" = .data (.num 1) ∧
    mirrorGet snap5 [] "b" = .nested (.obj [("c", .num 2)]) ["b"] ∧
    mirrorGet (.obj [("c", .num 2)]) ["b"] "c" = .data (.num 2) ∧
    (∀ prop : String, getField snap5 prop = none →
      mirrorGet snap5 [] prop = .stub [prop] []) ∧
    rpcCall child5 ["greet"] [] [] "r5" (fun _ => "cb") = .resolved (.str "hi") := by
  refine ⟨rfl, rfl, rfl, rfl, ?_, rfl⟩
  intro prop h
  simp [mirrorGet, h]

/-- Witness for C5: the property name `greet` is not snapshot data, so the
mirror serves a call stub for it. -/
theorem claim5_mirror_snapshot_witness :
    mirrorGet snap5 [] "greet" = .stub ["greet"] [] :=
  claim5_mirror_snapshot.2.2.2.2.1 "greet" rfl

/-- C6: with any number of outstanding calls tracked by pairwise-distinct
response ids, and the responses delivered in any order, the one-shot
listener of each call picks out exactly the payload carried by the response
bearing its own response id. -/
theorem claim6_per_id_correlation (entries : List (String × ResPayload))
    (hnd : (entries.map Prod.fst).Nodup) (delivered : List Msg)
    (hperm : delivered.Perm (entries.map (fun e => resMsg e.1 e.2)))
    (r : String) (p : ResPayload) (hmem : (r, p) ∈ entries) :
    awaitRes delivered r = some p := by
  have hres : resMatch r (resMsg r p) = some p := by simp [resMatch, resMsg]
  unfold awaitRes
  apply findSome?_of_unique (resMatch r) (resMsg r p) p hres
  · intro m hm hne
    have hm' : m ∈ entries.map (fun e => resMsg e.1 e.2) := hperm.mem_iff.mp hm
    obtain ⟨e, he, hmm⟩ := List.mem_map.mp hm'
    by_cases hr : e.1 = r
    · have hpair : (r, e.2) ∈ entries := by
        have hcongr : e = (r, e.2) := by
          obtain ⟨e1, e2⟩ := e
          simp only at hr
          rw [hr]
        rw [← hcongr]
        exact he
      have hp2 : e.2 = p := nodupKeys_eq entries hnd hpair hmem
      rw [← hmm, hr, hp2]
    · exfalso
      apply hne
      rw [← hmm]
      simp [resMatch, resMsg, hr]
  · exact hperm.mem_iff.mpr (List.mem_map.mpr ⟨(r, p), hmem, rfl⟩)

/-- Witness for C6: two outstanding calls whose responses arrive in swapped
order each still resolve with their own payload. -/
theorem claim6_per_id_correlation_witness :
    awaitRes [resMsg "r2" pay2, resMsg "r1" pay1] "r1" = some pay1 :=
  claim6_per_id_correlation [("r1", pay1), ("r2", pay2)] (by decide)
    [resMsg "r2" pay2, resMsg "r1" pay1]
    (List.Perm.swap (resMsg "r1" pay1) (resMsg "r2" pay2) [])
    "r1" pay1 (List.mem_cons_self _ _)

/-- Endpoint state after the snapshot of `child5` arrived. -/
def st5 : EndState := (step (initState none) (.dataUpdate snap5)).1

/-- Endpoint state after the Property Update `{path: ["b","c"], value: 5}`
arrived on top of the snapshot. -/
def st5' : EndState := (step st5 (.propUpdate ["b", "c"] (.num 5))).1

/-- C7: applying the Property Update `{path: ["b","c"], value: 5}` after
the snapshot of `{a: 1, b: {c: 2}, greet: ...}` makes the mirror read
`mirror.b.c = 5` while `mirror.a` is still `1`; the mirror root is
regenerated from the updated cache; the set-by-path is idempotent; and a
set into an empty cache creates the missing intermediate objects. -/
theorem claim7_prop_update :
    st5'.lastData = .obj [("a", .num 1), ("b", .obj [("c", .num 5)])] ∧
    st5'.mirrorBase = st5'.lastData ∧
    mirrorGet st5'.mirrorBase [] "b" = .nested (.obj [("c", .num 5)]) ["b"] ∧
    mirrorGet (.obj [("c", .num 5)]) ["b"] "c" = .data (.num 5) ∧
    mirrorGet st5'.mirrorBase [] "a" = .data (.num 1) ∧
    (∀ (t v : JVal) (p : List String), setPath (setPath t p v) p v = setPath t p v) ∧
    (∀ (p : List String) (v : JVal), p ≠ [] →
      getPath (setPath (.obj []) p v) p = some v) := by
  refine ⟨rfl, rfl, rfl, rfl, rfl, ?_, ?_⟩
  · intro t v p
    exact setPath_idem p t v
  · intro p v hp
    exact getPath_setPath_emptyObj p v hp

/-- Witness for C7: setting `["x","y"] := 7` into an empty cache creates
the intermediate object and the path then reads back `7`. -/
theorem claim7_prop_update_witness :
    getPath (setPath (.obj []) ["x", "y"] (.num 7)) ["x", "y"] = some (.num 7) :=
  claim7_prop_update.2.2.2.2.2.2 ["x", "y"] (.num 7) (by decide)

/-- C8: whenever the path of an inbound Call Request resolves to a
function, the `allow` dispatcher invokes it exactly once, bound to the
object found at `parentPath`; when the caller supplies the mirror's
`parentPath` (the path minus its last segment) this receiver is exactly the
receiver of the corresponding local method call; observably, a method
returning `this` answers with the parent object itself. -/
theorem claim8_receiver_binding
    (child : JVal) (call : FnCallMsg) (f : JFunc)
    (hres : getPath child call.path = some (.func f)) :
    (allowFnCall child call).invoked =
      [{ func := f, recv := (getPath child call.parentPath).getD JVal.null,
         args := call.params.map mapParam }] ∧
    (call.parentPath = call.path.dropLast →
      (getPath child call.parentPath).getD JVal.null = localReceiver child call.path) ∧
    allowFnCall child8 { path := ["o", "m"], parentPath := ["o"], resId := "r8", params := [] }
      = { sent := [{ id := some "r8", payload := .res { isError := false, data := oObj } }],
          invoked := [{ func := .retRecv, recv := oObj, args := [] }] } := by
  refine ⟨?_, ?_, rfl⟩
  · simp only [allowFnCall, hres, nullish, Bool.false_eq_true, if_false]
    cases happ : applyFunc f ((getPath child call.parentPath).getD JVal.null)
        (call.params.map mapParam) with
    | error e => simp [happ]
    | ok v => simp [happ]
  · intro h
    rw [h]
    rfl

/-- Witness for C8 on the concrete child `{o: {m: function () { return this },
x: 7}}`: the dispatcher invokes `m` once, bound to `o`. -/
theorem claim8_receiver_binding_witness :
    (allowFnCall child8
        { path := ["o", "m"], parentPath := ["o"], resId := "r9", params := [] }).invoked
      = [{ func := .retRecv, recv := oObj, args := [] }] :=
  (claim8_receiver_binding child8
    { path := ["o", "m"], parentPath := ["o"], resId := "r9", params := [] }
    .retRecv rfl).1

/-- C9: a packet missing `nonce` or `encrypted` is silently ignored by the
socket listeners, and the client interfaces also silently ignore an
undecryptable packet — but the *server* interfaces cited by the claim test
`decrypted == false`, which the `null` returned by a failed
`nacl.secretbox.open` does not satisfy, so the failed decryption falls
through to `Buffer.from(null)` and throws a `TypeError` out of the message
listener instead of being ignored. -/
theorem claim9_protocol_errors :
    serverListen { nonce := none, encrypted := some "e" } (.opened "m") = .ok none ∧
    serverListen { nonce := some "n", encrypted := none } .failed = .ok none ∧
    clientListen { nonce := some "n", encrypted := some "e" } .failed = .ok none ∧
    serverListen { nonce := some "n", encrypted := some "e" } .failed
      = .error { name := "TypeError", message := "Buffer.from received null" } :=
  ⟨rfl, rfl, rfl, rfl⟩

/-- C10: the constructor of the path-based `Rpc` registers no `fnCall`
listener, so on an endpoint on which `allow()` was never invoked no
inbound trace whatsoever dispatches a Call Request or sends any message;
the `fnCall` listener comes into existence only through `allow` (whatever
the `updates` flag is). -/
theorem claim10_no_dispatch_before_allow
    (child : Option JVal) (msgs : List InMsg) (u : Bool) :
    (initState child).fnCallAllowed = false ∧
    (runTrace (initState child) msgs).2 = emptyOut ∧
    (∀ c : JVal, (allowOp (initState (some c)) u).1.fnCallAllowed = true) := by
  refine ⟨rfl, (runTrace_unallowed msgs (initState child) rfl).1, ?_⟩
  intro c
  simp [allowOp, initState]
